import Mathlib

/-!
Shallow embedding of the SmartMeter-Vision reading/billing services
(`services/readings.ts`, `services/settings.ts`, `components/ReadingCard.tsx`).

JavaScript numbers are modelled as exact rationals (`ℚ`), nullable fields as
`Option`, Firestore documents as records in lists, and each service function as
an explicit state transformer `DB → Except String DB`.  Calendar conversion
(`Date` → "YYYY-MM") and date formatting are external library calls and are
passed in as parameter functions.
-/

namespace SmartMeter

/-- Reading status values used by the services: 'pending' | 'approved' | 'rejected'. -/
inductive Status where
  | pending
  | approved
  | rejected
deriving DecidableEq, Repr

/-- A document of the `readings` collection, with fields as written and read by
`readings.ts` (all numeric/string fields nullable, as in the Firestore data). -/
structure Reading where
  id : String
  flatId : String
  imageUrl : String := ""
  ocrReading : Option ℚ := none
  ocrConfidence : Option ℚ := none
  tenantReading : Option ℚ := none
  correctedReading : Option ℚ := none
  previousReading : Option ℚ := none
  unitsUsed : Option ℚ := none
  amount : Option ℚ := none
  status : Option Status := none
  createdAt : Option ℕ := none
  approvedAt : Option ℕ := none
  yearMonth : Option String := none
  tariffAtApproval : Option ℚ := none
  unitFactorAtApproval : Option ℚ := none
  rejectionReason : Option String := none
  reopenReason : Option String := none
deriving DecidableEq, Repr

/-- A document of the `flats` collection (fields relevant to approval). -/
structure Flat where
  id : String
  flatId : String
  tenantName : Option String := none
  userId : String := ""
  initialReading : Option ℚ := none
deriving DecidableEq, Repr

/-- The singleton `settings/globalTariff` document; `Option` models an absent
field or a field whose value is not a number (the code guards with `typeof`). -/
structure GlobalTariffDoc where
  tariffPerUnit : Option ℚ := none
  minimumPrice : Option ℚ := none
  unitFactor : Option ℚ := none
deriving DecidableEq, Repr

/-- The database state: the `readings` and `flats` collections plus the
optional `settings/globalTariff` document. -/
structure DB where
  readings : List Reading
  flats : List Flat
  settings : Option GlobalTariffDoc
deriving DecidableEq, Repr

/-- `getGlobalTariff` from settings.ts: 0 when the document is absent or
`tariffPerUnit` is not a number. -/
def getGlobalTariff (db : DB) : ℚ :=
  match db.settings with
  | none => 0
  | some d => d.tariffPerUnit.getD 0

/-- `getMinimumPrice` from settings.ts: defaults to 250. -/
def getMinimumPrice (db : DB) : ℚ :=
  match db.settings with
  | none => 250
  | some d => d.minimumPrice.getD 250

/-- `getUnitFactor` from settings.ts: defaults to 2.3. -/
def getUnitFactor (db : DB) : ℚ :=
  match db.settings with
  | none => 23/10
  | some d => d.unitFactor.getD (23/10)

/-- `updateGlobalTariff` from settings.ts: merge-write of `tariffPerUnit` into
the settings document. -/
def updateGlobalTariff (db : DB) (t : ℚ) : DB :=
  { db with settings := some (match db.settings with
      | none => { tariffPerUnit := some t }
      | some d => { d with tariffPerUnit := some t }) }

/-- `updateMinimumPrice` from settings.ts: merge-write of `minimumPrice`. -/
def updateMinimumPrice (db : DB) (m : ℚ) : DB :=
  { db with settings := some (match db.settings with
      | none => { minimumPrice := some m }
      | some d => { d with minimumPrice := some m }) }

/-- `updateUnitFactor` from settings.ts: merge-write of `unitFactor`. -/
def updateUnitFactor (db : DB) (u : ℚ) : DB :=
  { db with settings := some (match db.settings with
      | none => { unitFactor := some u }
      | some d => { d with unitFactor := some u }) }

/-- Modelled from the spec: `getFlatByFlatId` lives in the flats service, whose
source is not among the provided files; per the spec and the data-model
documentation it returns the flat with the given display flat identifier,
carrying the optional `initialReading` baseline. -/
def getFlatByFlatId (db : DB) (flatId : String) : Option Flat :=
  db.flats.find? (fun f => f.flatId == flatId)

/-- `r.status ?? 'pending'` as used by the monthly upload gate. -/
def statusOrPending (r : Reading) : Status :=
  r.status.getD Status.pending

/-- `r.yearMonth ?? getYearMonth(r.createdAt || 0)`: the month bucket of a
reading, with `ym` standing for the external `getYearMonth`/`Date` conversion. -/
def bucketOf (ym : ℕ → String) (r : Reading) : String :=
  r.yearMonth.getD (ym (r.createdAt.getD 0))

/-- `r.createdAt || 0` (absent and 0 are both falsy). -/
def createdAtOrZero (r : Reading) : ℕ :=
  r.createdAt.getD 0

/-- `r.approvedAt || r.createdAt || 0`: the key used to pick the most recent
approved reading. -/
def sortKey (r : Reading) : ℕ :=
  if r.approvedAt.getD 0 ≠ 0 then r.approvedAt.getD 0 else r.createdAt.getD 0

/-- `list.sort((a, b) => key(b) - key(a))[0]`: the first element of maximal key
(a stable descending sort keeps the earlier element first among ties). -/
def maxBy (key : Reading → ℕ) : List Reading → Option Reading
  | [] => none
  | r :: rs => some (rs.foldl (fun best x => if key x > key best then x else best) r)

/-- The readings blocking a new upload for `flatId` this month: same flat,
bucketed into the current month, status other than rejected. -/
def conflictsThisMonth (ym : ℕ → String) (db : DB) (flatId : String) (now : ℕ) :
    List Reading :=
  ((db.readings.filter (fun r => r.flatId == flatId)).filter
      (fun r => bucketOf ym r == ym now)).filter
    (fun r => statusOrPending r != Status.rejected)

/-- The error message thrown by the monthly upload gate, naming the latest
conflicting submission's date when its creation timestamp is truthy
(`fmt` stands for `toLocaleDateString`). -/
def uploadLimitMessage (fmt : ℕ → String) (latest : Reading) : String :=
  if createdAtOrZero latest ≠ 0 then
    "Upload limit reached. You already have a pending/approved upload on " ++
      fmt (createdAtOrZero latest) ++ ". Try again next month."
  else
    "Upload limit reached for this calendar month (pending/approved reading exists)."

/-- The document inserted by `createReadingFromImage` on success. -/
def newReading (newId flatId imageUrl : String) (tenantReading : Option ℚ)
    (now : ℕ) (ym : ℕ → String) : Reading :=
  { id := newId
    flatId := flatId
    imageUrl := imageUrl
    ocrReading := none
    ocrConfidence := none
    tenantReading := tenantReading
    correctedReading := none
    previousReading := none
    unitsUsed := none
    amount := none
    status := some Status.pending
    createdAt := some now
    yearMonth := some (ym now) }

/-- `createReadingFromImage` from readings.ts: the monthly upload gate followed
by insertion of a pending reading. -/
def createReadingFromImage (ym fmt : ℕ → String) (db : DB)
    (newId flatId imageUrl : String) (tenantReading : Option ℚ) (now : ℕ) :
    Except String DB :=
  let conflicts := conflictsThisMonth ym db flatId now
  match maxBy createdAtOrZero conflicts with
  | some latest => Except.error (uploadLimitMessage fmt latest)
  | none =>
      Except.ok { db with
        readings := db.readings ++ [newReading newId flatId imageUrl tenantReading now ym] }

/-- Point lookup of a reading document by id. -/
def findReading (db : DB) (id : String) : Option Reading :=
  db.readings.find? (fun r => r.id == id)

/-- Apply a field update to the document with the given id. -/
def updateReading (db : DB) (id : String) (f : Reading → Reading) : DB :=
  { db with readings := db.readings.map (fun r => if r.id = id then f r else r) }

/-- `updateDoc`, which fails when the target document does not exist. -/
def updateDocReading (db : DB) (id : String) (f : Reading → Reading) :
    Except String DB :=
  match findReading db id with
  | none => Except.error "No document to update"
  | some _ => Except.ok (updateReading db id f)

/-- The prior-approved-reading candidates in `approveReading`: same flat,
status approved, excluding the reading being approved. -/
def prevCandidates (db : DB) (flatId readingId : String) : List Reading :=
  (db.readings.filter (fun r => r.flatId == flatId && r.status == some Status.approved)).filter
    (fun r => r.id != readingId)

/-- The most recent prior approved reading (by approval timestamp, falling back
to creation timestamp). -/
def prevApproved (db : DB) (flatId readingId : String) : Option Reading :=
  maxBy sortKey (prevCandidates db flatId readingId)

/-- `prev.correctedReading ?? prev.ocrReading ?? null`. -/
def prevValueFromReading (p : Reading) : Option ℚ :=
  p.correctedReading.orElse (fun _ => p.ocrReading)

/-- The final previous reading used by `approveReading`: value of the most
recent prior approved reading, else the flat's initial reading, else 0. -/
def computedPreviousReading (db : DB) (flatId readingId : String) : ℚ :=
  let fromPrev := (prevApproved db flatId readingId).bind prevValueFromReading
  let withInitial :=
    fromPrev.orElse (fun _ => (getFlatByFlatId db flatId).bind (fun f => f.initialReading))
  withInitial.getD 0

/-- The field updates persisted by `approveReading`: corrected and previous
readings, clamped units, amount = units × unitFactor × tariff + minimumPrice,
approval timestamp, and the frozen tariff/unit factor. -/
def approvedFields (db : DB) (flatId readingId : String) (c : ℚ) (now : ℕ)
    (r : Reading) : Reading :=
  let p := computedPreviousReading db flatId readingId
  let rawUnits := c - p
  let u := if rawUnits > 0 then rawUnits else 0
  { r with
    correctedReading := some c
    previousReading := some p
    unitsUsed := some u
    amount := some (u * getUnitFactor db * getGlobalTariff db + getMinimumPrice db)
    status := some Status.approved
    approvedAt := some now
    tariffAtApproval := some (getGlobalTariff db)
    unitFactorAtApproval := some (getUnitFactor db) }

/-- `approveReading` from readings.ts: fails when the reading does not exist,
otherwise persists the computed billing fields.  No status check is made. -/
def approveReading (db : DB) (readingId : String) (correctedReading : ℚ)
    (now : ℕ) : Except String DB :=
  match findReading db readingId with
  | none => Except.error "Reading not found"
  | some reading =>
      Except.ok (updateReading db readingId
        (approvedFields db reading.flatId readingId correctedReading now))

/-- The field updates persisted by `rejectReading`. -/
def rejectFields (reason : Option String) (r : Reading) : Reading :=
  { r with status := some Status.rejected, rejectionReason := reason }

/-- `rejectReading` from readings.ts. -/
def rejectReading (db : DB) (readingId : String) (reason : Option String) :
    Except String DB :=
  updateDocReading db readingId (rejectFields reason)

/-- The field updates persisted by `reopenReading`: back to pending, clearing
the rejection reason, units, amount, approval timestamp and frozen tariff
(note that `unitFactorAtApproval` is not among the cleared fields). -/
def reopenFields (reason : Option String) (r : Reading) : Reading :=
  { r with
    status := some Status.pending
    rejectionReason := none
    reopenReason := reason
    unitsUsed := none
    amount := none
    approvedAt := none
    tariffAtApproval := none }

/-- `reopenReading` from readings.ts. -/
def reopenReading (db : DB) (readingId : String) (reason : Option String) :
    Except String DB :=
  updateDocReading db readingId (reopenFields reason)

/-- `calculateGrandTotal` from ReadingCard.tsx: for an approved reading,
recompute the energy amount from the frozen fields (with fallbacks 70 and 2.3)
and add a hardcoded minimum charge of 25. -/
def calculateGrandTotal (reading : Reading) : ℚ :=
  if reading.status ≠ some Status.approved then
    reading.amount.getD 0
  else
    let prev := reading.previousReading.getD 0
    let current := (reading.correctedReading.orElse (fun _ => reading.ocrReading)).getD 0
    let units := reading.unitsUsed.getD (max 0 (current - prev))
    let tariffPerKg := reading.tariffAtApproval.getD 70
    let unitFactor := reading.unitFactorAtApproval.getD (23/10)
    let minimumCharge : ℚ := 25
    let kgConsumed := units
    let totalKg := kgConsumed * unitFactor
    let energyAmount := totalKg * tariffPerKg
    energyAmount + minimumCharge

/-- A reading counts against the one-per-month invariant iff its status is
pending or approved. -/
def activeReading (r : Reading) : Prop :=
  r.status = some Status.pending ∨ r.status = some Status.approved

instance (r : Reading) : Decidable (activeReading r) :=
  inferInstanceAs (Decidable (r.status = some Status.pending ∨ r.status = some Status.approved))

/-- At most one pending/approved reading per (flat, year-month bucket). -/
def monthInvariant (ym : ℕ → String) (readings : List Reading) : Prop :=
  readings.Pairwise (fun r s =>
    ¬(activeReading r ∧ activeReading s ∧ r.flatId = s.flatId ∧
      bucketOf ym r = bucketOf ym s))

instance (ym : ℕ → String) (readings : List Reading) :
    Decidable (monthInvariant ym readings) :=
  inferInstanceAs (Decidable (readings.Pairwise _))

/-! ## General lemmas about the embedding -/

theorem maxBy_eq_none (key : Reading → ℕ) (l : List Reading) :
    maxBy key l = none ↔ l = [] := by
  cases l <;> simp [maxBy]

theorem foldl_max_bound (key : Reading → ℕ) (l : List Reading) (acc : Reading) :
    key acc ≤ key (l.foldl (fun best x => if key x > key best then x else best) acc)
    ∧ ∀ x ∈ l, key x ≤ key (l.foldl (fun best x => if key x > key best then x else best) acc) := by
  induction l generalizing acc with
  | nil => simp
  | cons a l ih =>
    simp only [List.foldl_cons]
    refine ⟨?_, ?_⟩
    · have h1 : key acc ≤ key (if key a > key acc then a else acc) := by
        by_cases h : key a > key acc
        · simpa [h] using Nat.le_of_lt h
        · simp [h]
      exact h1.trans (ih _).1
    · intro x hx
      rcases List.mem_cons.mp hx with rfl | hx
      · have h1 : key x ≤ key (if key x > key acc then x else acc) := by
          by_cases h : key x > key acc
          · simp [h]
          · simpa [h] using Nat.le_of_not_lt h
        exact h1.trans (ih _).1
      · exact (ih _).2 x hx

theorem maxBy_le (key : Reading → ℕ) {l : List Reading} {p : Reading}
    (h : maxBy key l = some p) : ∀ x ∈ l, key x ≤ key p := by
  cases l with
  | nil => simp [maxBy] at h
  | cons a l =>
    simp only [maxBy, Option.some.injEq] at h
    subst h
    intro x hx
    rcases List.mem_cons.mp hx with rfl | hx
    · exact (foldl_max_bound key l x).1
    · exact (foldl_max_bound key l a).2 x hx

theorem find?_map_update (l : List Reading) (id : String) (f : Reading → Reading)
    (hf : ∀ r, (f r).id = r.id) :
    (l.map (fun r => if r.id = id then f r else r)).find? (fun r => r.id == id)
      = (l.find? (fun r => r.id == id)).map f := by
  induction l with
  | nil => rfl
  | cons a l ih =>
    simp only [List.map_cons]
    by_cases h : a.id = id
    · rw [if_pos h]
      rw [List.find?_cons_of_pos _ (by simp [hf, h]),
        List.find?_cons_of_pos _ (by simp [h])]
      rfl
    · rw [if_neg h]
      rw [List.find?_cons_of_neg _ (by simp [h]),
        List.find?_cons_of_neg _ (by simp [h]), ih]

theorem findReading_updateReading (db : DB) (id : String) (f : Reading → Reading)
    (hf : ∀ r, (f r).id = r.id) :
    findReading (updateReading db id f) id = (findReading db id).map f :=
  find?_map_update db.readings id f hf

theorem approveReading_ok_inv {db db' : DB} {id : String} {c : ℚ} {now : ℕ}
    (h : approveReading db id c now = Except.ok db') :
    ∃ reading, findReading db id = some reading ∧
      db' = updateReading db id (approvedFields db reading.flatId id c now) := by
  cases hf : findReading db id with
  | none => simp [approveReading, hf] at h
  | some reading =>
    refine ⟨reading, rfl, ?_⟩
    simp only [approveReading, hf, Except.ok.injEq] at h
    exact h.symm

theorem approvedFields_id (db : DB) (flatId readingId : String) (c : ℚ) (now : ℕ)
    (r : Reading) : (approvedFields db flatId readingId c now r).id = r.id := rfl

theorem approve_found {db db' : DB} {id : String} {c : ℚ} {now : ℕ} {r' : Reading}
    (h : approveReading db id c now = Except.ok db')
    (h' : findReading db' id = some r') :
    ∃ reading, findReading db id = some reading ∧
      r' = approvedFields db reading.flatId id c now reading := by
  obtain ⟨reading, hfind, rfl⟩ := approveReading_ok_inv h
  rw [findReading_updateReading db id (approvedFields db reading.flatId id c now)
    (fun r => rfl), hfind] at h'
  simp only [Option.map_some', Option.some.injEq] at h'
  exact ⟨reading, hfind, h'.symm⟩

theorem updateDocReading_ok_inv {db db' : DB} {id : String} {f : Reading → Reading}
    (h : updateDocReading db id f = Except.ok db') :
    ∃ r, findReading db id = some r ∧ db' = updateReading db id f := by
  cases hf : findReading db id with
  | none => simp [updateDocReading, hf] at h
  | some r =>
    refine ⟨r, rfl, ?_⟩
    simp only [updateDocReading, hf, Except.ok.injEq] at h
    exact h.symm

theorem createReading_ok_inv {ym fmt : ℕ → String} {db : DB}
    {nid fid img : String} {tr : Option ℚ} {now : ℕ} {db' : DB}
    (h : createReadingFromImage ym fmt db nid fid img tr now = Except.ok db') :
    conflictsThisMonth ym db fid now = [] ∧
      db' = { db with readings := db.readings ++ [newReading nid fid img tr now ym] } := by
  cases hm : maxBy createdAtOrZero (conflictsThisMonth ym db fid now) with
  | some latest => simp [createReadingFromImage, hm] at h
  | none =>
    refine ⟨(maxBy_eq_none _ _).mp hm, ?_⟩
    simp only [createReadingFromImage, hm, Except.ok.injEq] at h
    exact h.symm

theorem createReading_error_inv {ym fmt : ℕ → String} {db : DB}
    {nid fid img : String} {tr : Option ℚ} {now : ℕ} {e : String}
    (h : createReadingFromImage ym fmt db nid fid img tr now = Except.error e) :
    ∃ latest, maxBy createdAtOrZero (conflictsThisMonth ym db fid now) = some latest ∧
      e = uploadLimitMessage fmt latest := by
  cases hm : maxBy createdAtOrZero (conflictsThisMonth ym db fid now) with
  | some latest =>
    refine ⟨latest, rfl, ?_⟩
    simp only [createReadingFromImage, hm, Except.error.injEq] at h
    exact h.symm
  | none => simp [createReadingFromImage, hm] at h

theorem mem_conflictsThisMonth (ym : ℕ → String) (db : DB) (fid : String)
    (now : ℕ) (r : Reading) :
    r ∈ conflictsThisMonth ym db fid now ↔
      r ∈ db.readings ∧ r.flatId = fid ∧ bucketOf ym r = ym now ∧
        statusOrPending r ≠ Status.rejected := by
  simp only [conflictsThisMonth, List.mem_filter, beq_iff_eq, bne_iff_ne, ne_eq]
  tauto

theorem if_pos_eq_max (q : ℚ) : (if q > 0 then q else 0) = max q 0 := by
  rcases le_or_lt q 0 with h | h
  · rw [if_neg (not_lt.mpr h), max_eq_right h]
  · rw [if_pos h, max_eq_left h.le]

/-! ## Concrete example data (used by witnesses and counterexamples) -/

/-- A placeholder reading used only as an `Option.getD` default. -/
def noReading : Reading := { id := "", flatId := "" }

/-- Prior approved reading of flat F1 with corrected value 100. -/
def exPrev : Reading :=
  { id := "r1", flatId := "F1", status := some Status.approved,
    correctedReading := some 100, createdAt := some 5, approvedAt := some 10 }

/-- Pending reading of flat F1 awaiting approval. -/
def exPend : Reading :=
  { id := "r2", flatId := "F1", status := some Status.pending, createdAt := some 20 }

/-- The spec's worked example: previous = 100, unitFactor = 2.3, tariff = 7.5,
minimumPrice = 250. -/
def exDb1 : DB :=
  { readings := [exPrev, exPend], flats := [],
    settings := some { tariffPerUnit := some (15/2), minimumPrice := some 250,
                       unitFactor := some (23/10) } }

/-- The state after approving `r2` with corrected reading 150. -/
def exDb1' : DB := ((approveReading exDb1 "r2" 150 30).toOption).getD exDb1

/-- The reading `r2` as stored after approval. -/
def exApproved : Reading := (findReading exDb1' "r2").getD noReading

/-! ## Claims -/

/-- Claim C1: for every approval, the persisted amount equals
unitsUsed × unitFactor × tariffPerUnit + minimumPrice, with the three settings
read from the pre-approval state; the minimum price is added, never a floor. -/
theorem approve_amount_formula (db db' : DB) (id : String) (c : ℚ) (now : ℕ)
    (r' : Reading) (h : approveReading db id c now = Except.ok db')
    (h' : findReading db' id = some r') :
    ∃ u : ℚ, r'.unitsUsed = some u ∧
      r'.amount = some (u * getUnitFactor db * getGlobalTariff db + getMinimumPrice db) := by
  obtain ⟨reading, hfind, rfl⟩ := approve_found h h'
  exact ⟨_, rfl, rfl⟩

/-- Witness for C1 at the spec's example: previous = 100, corrected = 150,
unitFactor = 2.3, tariff = 7.5, minimumPrice = 250 gives amount 1112.5. -/
theorem approve_amount_formula_witness :
    (∃ u : ℚ, exApproved.unitsUsed = some u ∧
        exApproved.amount =
          some (u * getUnitFactor exDb1 * getGlobalTariff exDb1 + getMinimumPrice exDb1))
    ∧ exApproved.amount = some (1112.5 : ℚ)
    ∧ exApproved.unitsUsed = some 50 := by
  refine ⟨approve_amount_formula exDb1 exDb1' "r2" 150 30 exApproved rfl rfl, ?_, ?_⟩
  · simp +decide [exDb1, exDb1', exApproved, exPrev, exPend, approveReading,
      approvedFields, computedPreviousReading, prevApproved, prevCandidates, maxBy,
      prevValueFromReading, getFlatByFlatId, getUnitFactor, getGlobalTariff,
      getMinimumPrice, findReading, updateReading, sortKey, Option.orElse, List.filter,
      noReading, Except.toOption, List.find?]
    norm_num
  · simp +decide [exDb1, exDb1', exApproved, exPrev, exPend, approveReading,
      approvedFields, computedPreviousReading, prevApproved, prevCandidates, maxBy,
      prevValueFromReading, getFlatByFlatId, getUnitFactor, getGlobalTariff,
      getMinimumPrice, findReading, updateReading, sortKey, Option.orElse, List.filter,
      noReading, Except.toOption, List.find?]
    norm_num

/-- Claim C3: the persisted unitsUsed is max(corrected − previous, 0); when the
corrected value is below the previous reading the units clamp to 0 and the
amount is exactly the minimum price. -/
theorem approve_units_clamped (db db' : DB) (id : String) (c : ℚ) (now : ℕ)
    (reading r' : Reading)
    (h0 : findReading db id = some reading)
    (h : approveReading db id c now = Except.ok db')
    (h' : findReading db' id = some r') :
    r'.unitsUsed = some (max (c - computedPreviousReading db reading.flatId id) 0)
    ∧ (c < computedPreviousReading db reading.flatId id →
        r'.unitsUsed = some 0 ∧ r'.amount = some (getMinimumPrice db)) := by
  obtain ⟨reading2, hfind, rfl⟩ := approve_found h h'
  rw [h0] at hfind
  injection hfind with hfind
  subst hfind
  constructor
  · show some (if c - computedPreviousReading db reading.flatId id > 0 then _ else 0) = _
    rw [if_pos_eq_max]
  · intro hlt
    have hle : c - computedPreviousReading db reading.flatId id ≤ 0 := by linarith
    have hu : (if c - computedPreviousReading db reading.flatId id > 0
        then c - computedPreviousReading db reading.flatId id else 0) = 0 :=
      if_neg (not_lt.mpr hle)
    refine ⟨?_, ?_⟩
    · show some (if c - computedPreviousReading db reading.flatId id > 0 then _ else 0) = _
      rw [hu]
    · show some ((if c - computedPreviousReading db reading.flatId id > 0 then _ else 0) *
        getUnitFactor db * getGlobalTariff db + getMinimumPrice db) = _
      rw [hu, zero_mul, zero_mul, zero_add]

/-- A meter-reset example: previous approved reading 100, new corrected
reading 50. -/
def exDb3 : DB :=
  { readings := [exPrev, exPend], flats := [],
    settings := some { tariffPerUnit := some (15/2), minimumPrice := some 250,
                       unitFactor := some (23/10) } }

/-- The state after approving `r2` of `exDb3` with corrected reading 50. -/
def exDb3' : DB := ((approveReading exDb3 "r2" 50 30).toOption).getD exDb3

/-- The reading `r2` of `exDb3'` as stored after approval. -/
def exReset : Reading := (findReading exDb3' "r2").getD noReading

/-- Witness for C3 at a meter-reset input: corrected 50 < previous 100, so
unitsUsed clamps to 0 and the amount is the minimum price 250. -/
theorem approve_units_clamped_witness :
    (exReset.unitsUsed = some (max ((50:ℚ) - computedPreviousReading exDb3 exPend.flatId "r2") 0)
      ∧ ((50:ℚ) < computedPreviousReading exDb3 exPend.flatId "r2" →
          exReset.unitsUsed = some 0 ∧ exReset.amount = some (getMinimumPrice exDb3)))
    ∧ exReset.unitsUsed = some 0 ∧ exReset.amount = some 250 := by
  have hmain := approve_units_clamped exDb3 exDb3' "r2" 50 30 exPend exReset rfl rfl rfl
  have hlt : (50:ℚ) < computedPreviousReading exDb3 exPend.flatId "r2" := by
    simp +decide [exDb3, exPrev, exPend, computedPreviousReading, prevApproved,
      prevCandidates, maxBy, prevValueFromReading, getFlatByFlatId, sortKey,
      Option.orElse, List.filter]
  obtain ⟨h1, h2⟩ := hmain
  obtain ⟨h3, h4⟩ := h2 hlt
  have hmin : getMinimumPrice exDb3 = 250 := rfl
  exact ⟨⟨h1, fun _ => ⟨h3, h4⟩⟩, h3, hmin ▸ h4⟩

/-- Claim C2: the previous reading comes from the most recent (by approval
timestamp, falling back to creation timestamp) approved reading of the same
flat excluding the one being approved, taking its corrected value or legacy OCR
value; if no such reading exists it falls back to the flat's configured initial
reading, and to 0 when that is also absent. -/
theorem approve_previous_reading_selection (db db' : DB) (id : String) (c : ℚ)
    (now : ℕ) (reading r' : Reading)
    (h0 : findReading db id = some reading)
    (h : approveReading db id c now = Except.ok db')
    (h' : findReading db' id = some r') :
    r'.previousReading = some (computedPreviousReading db reading.flatId id)
    ∧ (∀ p, prevApproved db reading.flatId id = some p →
        (∀ s ∈ prevCandidates db reading.flatId id, sortKey s ≤ sortKey p)
        ∧ ∀ v, prevValueFromReading p = some v →
            computedPreviousReading db reading.flatId id = v)
    ∧ (prevApproved db reading.flatId id = none →
        computedPreviousReading db reading.flatId id
          = ((getFlatByFlatId db reading.flatId).bind (fun f => f.initialReading)).getD 0)
    ∧ (prevApproved db reading.flatId id = none →
        (getFlatByFlatId db reading.flatId).bind (fun f => f.initialReading) = none →
        computedPreviousReading db reading.flatId id = 0) := by
  obtain ⟨reading2, hfind, rfl⟩ := approve_found h h'
  rw [h0] at hfind
  injection hfind with hfind
  subst hfind
  refine ⟨rfl, ?_, ?_, ?_⟩
  · intro p hp
    refine ⟨maxBy_le sortKey hp, ?_⟩
    intro v hv
    simp [computedPreviousReading, hp, hv, Option.orElse]
  · intro hp
    simp [computedPreviousReading, hp, Option.orElse]
  · intro hp hflat
    simp [computedPreviousReading, hp, hflat, Option.orElse]

/-- Witness for C2 at the worked example: the prior approved reading `r1` with
corrected value 100 supplies the previous reading. -/
theorem approve_previous_reading_selection_witness :
    (exApproved.previousReading = some (computedPreviousReading exDb1 exPend.flatId "r2")
      ∧ (∀ p, prevApproved exDb1 exPend.flatId "r2" = some p →
          (∀ s ∈ prevCandidates exDb1 exPend.flatId "r2", sortKey s ≤ sortKey p)
          ∧ ∀ v, prevValueFromReading p = some v →
              computedPreviousReading exDb1 exPend.flatId "r2" = v)
      ∧ (prevApproved exDb1 exPend.flatId "r2" = none →
          computedPreviousReading exDb1 exPend.flatId "r2"
            = ((getFlatByFlatId exDb1 exPend.flatId).bind (fun f => f.initialReading)).getD 0)
      ∧ (prevApproved exDb1 exPend.flatId "r2" = none →
          (getFlatByFlatId exDb1 exPend.flatId).bind (fun f => f.initialReading) = none →
          computedPreviousReading exDb1 exPend.flatId "r2" = 0))
    ∧ computedPreviousReading exDb1 exPend.flatId "r2" = 100 := by
  refine ⟨approve_previous_reading_selection exDb1 exDb1' "r2" 150 30 exPend exApproved
    rfl rfl rfl, ?_⟩
  simp +decide [exDb1, exPrev, exPend, computedPreviousReading, prevApproved,
    prevCandidates, maxBy, prevValueFromReading, getFlatByFlatId, sortKey,
    Option.orElse, List.filter]

/-- Claim C9: `approveReading` fails exactly when the target reading does not
exist; for any existing reading, of whatever status, the approval proceeds. -/
theorem approve_error_iff_missing (db : DB) (id : String) (c : ℚ) (now : ℕ) :
    ((∃ e, approveReading db id c now = Except.error e) ↔ findReading db id = none)
    ∧ (findReading db id = none →
        approveReading db id c now = Except.error "Reading not found")
    ∧ (∀ r, findReading db id = some r →
        ∃ db', approveReading db id c now = Except.ok db') := by
  refine ⟨⟨?_, ?_⟩, ?_, ?_⟩
  · rintro ⟨e, he⟩
    cases hf : findReading db id with
    | none => rfl
    | some r => simp [approveReading, hf] at he
  · intro hf
    exact ⟨"Reading not found", by simp [approveReading, hf]⟩
  · intro hf
    simp [approveReading, hf]
  · intro r hf
    exact ⟨updateReading db id (approvedFields db r.flatId id c now),
      by simp [approveReading, hf]⟩

/-- A rejected reading. -/
def exRej : Reading :=
  { id := "r1", flatId := "F1", status := some Status.rejected, createdAt := some 4 }

/-- A database whose only reading is rejected. -/
def exDb9 : DB := { readings := [exRej], flats := [], settings := none }

/-- Witness for C9: approval of a missing reading errors; approval of an
existing rejected reading succeeds without a status check. -/
theorem approve_error_iff_missing_witness :
    approveReading { readings := [], flats := [], settings := none } "r1" 5 6
        = Except.error "Reading not found"
    ∧ ∃ db', approveReading exDb9 "r1" 5 6 = Except.ok db' :=
  ⟨(approve_error_iff_missing { readings := [], flats := [], settings := none }
      "r1" 5 6).2.1 rfl,
   (approve_error_iff_missing exDb9 "r1" 5 6).2.2 exRej rfl⟩

/-- Claim C10: with the settings document absent (or its tariff not a number)
the tariff reads 0, the minimum price 250 and the unit factor 2.3, so any
approval in an unconfigured system stores an amount of exactly 250. -/
theorem unconfigured_settings_defaults (db : DB) :
    (db.settings = none →
      getGlobalTariff db = 0 ∧ getMinimumPrice db = 250 ∧ getUnitFactor db = 23/10)
    ∧ (∀ d, db.settings = some d → d.tariffPerUnit = none → getGlobalTariff db = 0)
    ∧ (db.settings = none →
        ∀ id c now db' r', approveReading db id c now = Except.ok db' →
          findReading db' id = some r' → r'.amount = some 250) := by
  refine ⟨?_, ?_, ?_⟩
  · intro hs
    refine ⟨?_, ?_, ?_⟩ <;> simp [getGlobalTariff, getMinimumPrice, getUnitFactor, hs]
  · intro d hs ht
    simp [getGlobalTariff, hs, ht]
  · intro hs id c now db' r' h h'
    obtain ⟨reading, hfind, rfl⟩ := approve_found h h'
    have hg : getGlobalTariff db = 0 := by simp [getGlobalTariff, hs]
    have hm : getMinimumPrice db = 250 := by simp [getMinimumPrice, hs]
    simp [approvedFields, hg, hm]

/-- A pending reading in an unconfigured database. -/
def exPend10 : Reading :=
  { id := "r1", flatId := "F1", status := some Status.pending, createdAt := some 4 }

/-- An unconfigured database with one pending reading. -/
def exDb10 : DB := { readings := [exPend10], flats := [], settings := none }

/-- The state after approving `r1` of `exDb10` with corrected reading 60. -/
def exDb10' : DB := ((approveReading exDb10 "r1" 60 7).toOption).getD exDb10

/-- Witness for C10: approving 60 units in an unconfigured system stores an
amount of exactly the default minimum price 250. -/
theorem unconfigured_settings_defaults_witness :
    ((findReading exDb10' "r1").getD noReading).amount = some 250 :=
  (unconfigured_settings_defaults exDb10).2.2 (show exDb10.settings = none from rfl)
    "r1" 60 7 exDb10'
    ((findReading exDb10' "r1").getD noReading) rfl rfl

/-- Claim C6: approval freezes the settings in effect at approval time onto
the reading, and later changes to any global setting leave the stored readings
untouched. -/
theorem approve_snapshot_and_settings_frame (db db' : DB) (id : String) (c : ℚ)
    (now : ℕ) (r' : Reading)
    (h : approveReading db id c now = Except.ok db')
    (h' : findReading db' id = some r') :
    r'.tariffAtApproval = some (getGlobalTariff db)
    ∧ r'.unitFactorAtApproval = some (getUnitFactor db)
    ∧ (∃ u, r'.unitsUsed = some u ∧
        r'.amount = some (u * getUnitFactor db * getGlobalTariff db + getMinimumPrice db))
    ∧ (∀ t, (updateGlobalTariff db' t).readings = db'.readings)
    ∧ (∀ m, (updateMinimumPrice db' m).readings = db'.readings)
    ∧ (∀ u, (updateUnitFactor db' u).readings = db'.readings) := by
  obtain ⟨reading, hfind, rfl⟩ := approve_found h h'
  exact ⟨rfl, rfl, ⟨_, rfl, rfl⟩, fun t => rfl, fun m => rfl, fun u => rfl⟩

/-- Witness for C6: at the worked example, the frozen fields match the settings
at approval time, and raising the global tariff to 999 afterwards leaves the
stored reading (and its amount) unchanged. -/
theorem approve_snapshot_and_settings_frame_witness :
    (exApproved.tariffAtApproval = some (getGlobalTariff exDb1)
      ∧ exApproved.unitFactorAtApproval = some (getUnitFactor exDb1)
      ∧ (∃ u, exApproved.unitsUsed = some u ∧
          exApproved.amount =
            some (u * getUnitFactor exDb1 * getGlobalTariff exDb1 + getMinimumPrice exDb1))
      ∧ (∀ t, (updateGlobalTariff exDb1' t).readings = exDb1'.readings)
      ∧ (∀ m, (updateMinimumPrice exDb1' m).readings = exDb1'.readings)
      ∧ (∀ u, (updateUnitFactor exDb1' u).readings = exDb1'.readings))
    ∧ findReading (updateGlobalTariff exDb1' 999) "r2" = findReading exDb1' "r2" :=
  ⟨approve_snapshot_and_settings_frame exDb1 exDb1' "r2" 150 30 exApproved rfl rfl, rfl⟩

/-- An approved reading with all computed and frozen fields populated. -/
def exFrozen : Reading :=
  { id := "r1", flatId := "F1", status := some Status.approved,
    correctedReading := some 150, previousReading := some 100,
    unitsUsed := some 50, amount := some (2225/2), createdAt := some 3,
    approvedAt := some 9, tariffAtApproval := some (15/2),
    unitFactorAtApproval := some (23/10), imageUrl := "img", tenantReading := some 149 }

/-- A database holding the frozen approved reading. -/
def cexDb7 : DB := { readings := [exFrozen], flats := [], settings := none }

/-- The state after reopening `r1` of `cexDb7`. -/
def cexDb7' : DB := ((reopenReading cexDb7 "r1" (some "recheck")).toOption).getD cexDb7

/-- Counterexample to C7 as stated: reopening an approved reading does not
clear the frozen unit factor — `unitFactorAtApproval` survives the reopen. -/
theorem reopen_keeps_unit_factor_cex :
    exFrozen.status = some Status.approved
    ∧ reopenReading cexDb7 "r1" (some "recheck") = Except.ok cexDb7'
    ∧ ((findReading cexDb7' "r1").getD noReading).status = some Status.pending
    ∧ ((findReading cexDb7' "r1").getD noReading).tariffAtApproval = none
    ∧ ((findReading cexDb7' "r1").getD noReading).unitFactorAtApproval = some (23/10)
    ∧ ((findReading cexDb7' "r1").getD noReading).unitFactorAtApproval ≠ none := by
  have h5 : ((findReading cexDb7' "r1").getD noReading).unitFactorAtApproval
      = some (23/10) := rfl
  exact ⟨rfl, rfl, rfl, rfl, h5, by rw [h5]; simp⟩

/-- Claim C7 (amended): reopening an approved reading sets status to pending,
records the reopen reason, clears the rejection reason, and clears unitsUsed,
amount, approvedAt and the tariff frozen at approval — but retains
`unitFactorAtApproval` — while keeping the original submission metadata
(image, tenant-asserted value, creation timestamp) unchanged. -/
theorem reopen_resets_fields (db db' : DB) (id : String) (reason : Option String)
    (r r' : Reading)
    (h0 : findReading db id = some r)
    (h : reopenReading db id reason = Except.ok db')
    (h' : findReading db' id = some r') :
    r'.status = some Status.pending
    ∧ r'.reopenReason = reason
    ∧ r'.rejectionReason = none
    ∧ r'.unitsUsed = none ∧ r'.amount = none ∧ r'.approvedAt = none
    ∧ r'.tariffAtApproval = none
    ∧ r'.unitFactorAtApproval = r.unitFactorAtApproval
    ∧ r'.imageUrl = r.imageUrl ∧ r'.tenantReading = r.tenantReading
    ∧ r'.createdAt = r.createdAt ∧ r'.flatId = r.flatId := by
  obtain ⟨r2, hfind, rfl⟩ := updateDocReading_ok_inv h
  rw [findReading_updateReading db id (reopenFields reason) (fun r => rfl), h0] at h'
  simp only [Option.map_some', Option.some.injEq] at h'
  subst h'
  exact ⟨rfl, rfl, rfl, rfl, rfl, rfl, rfl, rfl, rfl, rfl, rfl, rfl⟩

/-- Witness for C7 (amended) at the concrete frozen reading. -/
theorem reopen_resets_fields_witness :
    ((findReading cexDb7' "r1").getD noReading).status = some Status.pending
    ∧ ((findReading cexDb7' "r1").getD noReading).reopenReason = some "recheck"
    ∧ ((findReading cexDb7' "r1").getD noReading).rejectionReason = none
    ∧ ((findReading cexDb7' "r1").getD noReading).unitsUsed = none
    ∧ ((findReading cexDb7' "r1").getD noReading).amount = none
    ∧ ((findReading cexDb7' "r1").getD noReading).approvedAt = none
    ∧ ((findReading cexDb7' "r1").getD noReading).tariffAtApproval = none
    ∧ ((findReading cexDb7' "r1").getD noReading).unitFactorAtApproval
        = exFrozen.unitFactorAtApproval
    ∧ ((findReading cexDb7' "r1").getD noReading).imageUrl = exFrozen.imageUrl
    ∧ ((findReading cexDb7' "r1").getD noReading).tenantReading = exFrozen.tenantReading
    ∧ ((findReading cexDb7' "r1").getD noReading).createdAt = exFrozen.createdAt
    ∧ ((findReading cexDb7' "r1").getD noReading).flatId = exFrozen.flatId :=
  reopen_resets_fields cexDb7 cexDb7' "r1" (some "recheck") exFrozen
    ((findReading cexDb7' "r1").getD noReading) rfl rfl rfl

/-- Counterexample to C8 as stated: the display formula hardcodes a minimum
charge of 25 while approval adds the configured minimum price (250 here), so
the recomputed grand total 887.5 differs from the stored amount 1112.5 even
though both frozen fields are present. -/
theorem display_total_mismatch_cex :
    approveReading exDb1 "r2" 150 30 = Except.ok exDb1'
    ∧ findReading exDb1' "r2" = some exApproved
    ∧ exApproved.tariffAtApproval = some (15/2)
    ∧ exApproved.unitFactorAtApproval = some (23/10)
    ∧ exApproved.amount = some (1112.5 : ℚ)
    ∧ calculateGrandTotal exApproved = (887.5 : ℚ)
    ∧ (887.5 : ℚ) ≠ (1112.5 : ℚ) := by
  refine ⟨rfl, rfl, rfl, rfl, ?_, ?_, by norm_num⟩
  · simp +decide [exDb1, exDb1', exApproved, exPrev, exPend, approveReading,
      approvedFields, computedPreviousReading, prevApproved, prevCandidates, maxBy,
      prevValueFromReading, getFlatByFlatId, getUnitFactor, getGlobalTariff,
      getMinimumPrice, findReading, updateReading, sortKey, Option.orElse, List.filter,
      noReading, Except.toOption, List.find?]
    norm_num
  · simp +decide [exDb1, exDb1', exApproved, exPrev, exPend, approveReading,
      approvedFields, computedPreviousReading, prevApproved, prevCandidates, maxBy,
      prevValueFromReading, getFlatByFlatId, getUnitFactor, getGlobalTariff,
      getMinimumPrice, findReading, updateReading, sortKey, Option.orElse, List.filter,
      noReading, Except.toOption, List.find?, calculateGrandTotal]
    norm_num

/-- Claim C8 (amended): the display recomputation from the frozen fields equals
the stored amount's energy component plus a hardcoded 25, so it coincides with
the stored amount exactly when the minimum price at approval time was 25. -/
theorem display_total_vs_stored (db db' : DB) (id : String) (c : ℚ) (now : ℕ)
    (r' : Reading)
    (h : approveReading db id c now = Except.ok db')
    (h' : findReading db' id = some r') :
    ∃ e : ℚ, r'.amount = some (e + getMinimumPrice db)
      ∧ calculateGrandTotal r' = e + 25
      ∧ (getMinimumPrice db = 25 → calculateGrandTotal r' = r'.amount.getD 0) := by
  obtain ⟨reading, hfind, rfl⟩ := approve_found h h'
  have hc : calculateGrandTotal (approvedFields db reading.flatId id c now reading)
      = (if c - computedPreviousReading db reading.flatId id > 0
          then c - computedPreviousReading db reading.flatId id else 0) *
          getUnitFactor db * getGlobalTariff db + 25 := by
    simp [calculateGrandTotal, approvedFields]
  refine ⟨(if c - computedPreviousReading db reading.flatId id > 0
      then c - computedPreviousReading db reading.flatId id else 0) *
      getUnitFactor db * getGlobalTariff db, rfl, hc, ?_⟩
  intro h25
  rw [hc]
  show _ = (some ((if c - computedPreviousReading db reading.flatId id > 0
      then c - computedPreviousReading db reading.flatId id else 0) *
      getUnitFactor db * getGlobalTariff db + getMinimumPrice db)).getD 0
  rw [h25, Option.getD_some]

/-- A database configured with minimum price 25, where display and stored
amounts agree. -/
def exDb8 : DB :=
  { readings := [exPrev, exPend], flats := [],
    settings := some { tariffPerUnit := some (15/2), minimumPrice := some 25,
                       unitFactor := some (23/10) } }

/-- The state after approving `r2` of `exDb8` with corrected reading 150. -/
def exDb8' : DB := ((approveReading exDb8 "r2" 150 30).toOption).getD exDb8

/-- Witness for C8 (amended): with minimum price 25 the display recomputation
equals the stored amount. -/
theorem display_total_vs_stored_witness :
    (∃ e : ℚ,
        ((findReading exDb8' "r2").getD noReading).amount = some (e + getMinimumPrice exDb8)
        ∧ calculateGrandTotal ((findReading exDb8' "r2").getD noReading) = e + 25
        ∧ (getMinimumPrice exDb8 = 25 →
            calculateGrandTotal ((findReading exDb8' "r2").getD noReading)
              = ((findReading exDb8' "r2").getD noReading).amount.getD 0))
    ∧ getMinimumPrice exDb8 = 25 := by
  refine ⟨display_total_vs_stored exDb8 exDb8' "r2" 150 30
    ((findReading exDb8' "r2").getD noReading) rfl rfl, rfl⟩

/-- Claim C4: creating a reading fails with the descriptive monthly-limit
error exactly when some existing reading of the flat, bucketed by its stored
year-month or its creation timestamp, falls in the current month with a status
other than rejected; otherwise a pending reading is appended. -/
theorem create_monthly_gate (ym fmt : ℕ → String) (db : DB)
    (nid fid img : String) (tr : Option ℚ) (now : ℕ) :
    ((∃ e, createReadingFromImage ym fmt db nid fid img tr now = Except.error e) ↔
      conflictsThisMonth ym db fid now ≠ [])
    ∧ (∀ e, createReadingFromImage ym fmt db nid fid img tr now = Except.error e →
        ∃ latest, maxBy createdAtOrZero (conflictsThisMonth ym db fid now) = some latest ∧
          e = uploadLimitMessage fmt latest)
    ∧ (∀ db', createReadingFromImage ym fmt db nid fid img tr now = Except.ok db' →
        conflictsThisMonth ym db fid now = [] ∧
        db'.readings = db.readings ++ [newReading nid fid img tr now ym] ∧
        (newReading nid fid img tr now ym).status = some Status.pending)
    ∧ (conflictsThisMonth ym db fid now ≠ [] ↔
        ∃ r ∈ db.readings, r.flatId = fid ∧ bucketOf ym r = ym now ∧
          statusOrPending r ≠ Status.rejected) := by
  refine ⟨⟨?_, ?_⟩, ?_, ?_, ?_⟩
  · rintro ⟨e, he⟩
    obtain ⟨latest, hl, -⟩ := createReading_error_inv he
    intro hnil
    rw [hnil] at hl
    simp [maxBy] at hl
  · intro hne
    cases hm : maxBy createdAtOrZero (conflictsThisMonth ym db fid now) with
    | none => exact absurd ((maxBy_eq_none _ _).mp hm) hne
    | some latest =>
        exact ⟨uploadLimitMessage fmt latest, by simp [createReadingFromImage, hm]⟩
  · intro e he
    exact createReading_error_inv he
  · intro db' hok
    obtain ⟨hnil, rfl⟩ := createReading_ok_inv hok
    exact ⟨hnil, rfl, rfl⟩
  · constructor
    · intro hne
      obtain ⟨r, hr⟩ := List.exists_mem_of_ne_nil _ hne
      obtain ⟨hrm, h1, h2, h3⟩ := (mem_conflictsThisMonth ym db fid now r).mp hr
      exact ⟨r, hrm, h1, h2, h3⟩
    · rintro ⟨r, hrm, h1, h2, h3⟩ hnil
      have hmem := (mem_conflictsThisMonth ym db fid now r).mpr ⟨hrm, h1, h2, h3⟩
      rw [hnil] at hmem
      simp at hmem

/-- A fixed stand-in for the external calendar conversion `getYearMonth`. -/
def ymEx : ℕ → String := fun t => toString (t / 30)

/-- A fixed stand-in for the external date formatter `toLocaleDateString`. -/
def fmtEx : ℕ → String := fun t => toString t

/-- An empty database: no upload this month. -/
def exDb4 : DB := { readings := [], flats := [], settings := none }

/-- The state after a successful upload into the empty database. -/
def exDb4' : DB :=
  ((createReadingFromImage ymEx fmtEx exDb4 "n1" "F1" "img" none 5).toOption).getD exDb4

/-- A pending reading already bucketed into the current month. -/
def exBusy : Reading :=
  { id := "b1", flatId := "F1", status := some Status.pending, createdAt := some 3,
    yearMonth := some (ymEx 7) }

/-- A database with a pending upload this month. -/
def exDb4b : DB := { readings := [exBusy], flats := [], settings := none }

/-- Witness for C4: uploading into an empty database inserts a pending reading,
while uploading with a pending reading already this month raises the
monthly-limit error naming that submission. -/
theorem create_monthly_gate_witness :
    (conflictsThisMonth ymEx exDb4 "F1" 5 = []
      ∧ exDb4'.readings = exDb4.readings ++ [newReading "n1" "F1" "img" none 5 ymEx]
      ∧ (newReading "n1" "F1" "img" none 5 ymEx).status = some Status.pending)
    ∧ ∃ latest, maxBy createdAtOrZero (conflictsThisMonth ymEx exDb4b "F1" 7) = some latest
        ∧ uploadLimitMessage fmtEx exBusy = uploadLimitMessage fmtEx latest :=
  ⟨(create_monthly_gate ymEx fmtEx exDb4 "n1" "F1" "img" none 5).2.2.1 exDb4' rfl,
   (create_monthly_gate ymEx fmtEx exDb4b "n1" "F1" "img" none 7).2.1
      (uploadLimitMessage fmtEx exBusy) rfl⟩

/-- Pairwise month-invariant transfer along a map that preserves the flat,
the bucket, and activity (conditionally on membership). -/
theorem monthInvariant_map (ym : ℕ → String) (l : List Reading)
    (g : Reading → Reading)
    (hflat : ∀ r, (g r).flatId = r.flatId)
    (hbucket : ∀ r, bucketOf ym (g r) = bucketOf ym r)
    (hact : ∀ r ∈ l, activeReading (g r) → activeReading r)
    (hinv : monthInvariant ym l) : monthInvariant ym (l.map g) := by
  simp only [monthInvariant, List.pairwise_map]
  refine List.Pairwise.imp_of_mem ?_ hinv
  intro a b ha hb hR hcon
  have h3 : a.flatId = b.flatId := by rw [← hflat a, ← hflat b]; exact hcon.2.2.1
  have h4 : bucketOf ym a = bucketOf ym b := by
    rw [← hbucket a, ← hbucket b]; exact hcon.2.2.2
  exact hR ⟨hact a ha hcon.1, hact b hb hcon.2.1, h3, h4⟩

theorem updateReading_preserves_monthInvariant (ym : ℕ → String) (db : DB)
    (id : String) (f : Reading → Reading)
    (hflat : ∀ r, (f r).flatId = r.flatId)
    (hbucket : ∀ r, bucketOf ym (f r) = bucketOf ym r)
    (hact : ∀ r ∈ db.readings, r.id = id → activeReading (f r) → activeReading r)
    (hinv : monthInvariant ym db.readings) :
    monthInvariant ym (updateReading db id f).readings := by
  apply monthInvariant_map ym db.readings _ _ _ _ hinv
  · intro r
    by_cases hr : r.id = id <;> simp [hr, hflat]
  · intro r
    by_cases hr : r.id = id <;> simp [hr, hbucket]
  · intro r hrm hactive
    by_cases hr : r.id = id
    · rw [if_pos hr] at hactive
      exact hact r hrm hr hactive
    · rwa [if_neg hr] at hactive

theorem create_preserves_monthInvariant {ym fmt : ℕ → String} {db : DB}
    {nid fid img : String} {tr : Option ℚ} {now : ℕ} {db' : DB}
    (hinv : monthInvariant ym db.readings)
    (h : createReadingFromImage ym fmt db nid fid img tr now = Except.ok db') :
    monthInvariant ym db'.readings := by
  obtain ⟨hconf, rfl⟩ := createReading_ok_inv h
  show monthInvariant ym (db.readings ++ [newReading nid fid img tr now ym])
  simp only [monthInvariant, List.pairwise_append]
  refine ⟨hinv, by simp, ?_⟩
  intro a ha b hb
  simp only [List.mem_singleton] at hb
  subst hb
  rintro ⟨hactA, hactB, hflat, hbuck⟩
  have hmem : a ∈ conflictsThisMonth ym db fid now := by
    rw [mem_conflictsThisMonth]
    refine ⟨ha, hflat, ?_, ?_⟩
    · rw [hbuck]; rfl
    · rcases hactA with h1 | h1 <;> simp [statusOrPending, h1]
  rw [hconf] at hmem
  simp at hmem

theorem approve_preserves_monthInvariant {ym : ℕ → String} {db db' : DB}
    {id : String} {c : ℚ} {now : ℕ}
    (hinv : monthInvariant ym db.readings)
    (hact : ∀ r ∈ db.readings, r.id = id → activeReading r)
    (h : approveReading db id c now = Except.ok db') :
    monthInvariant ym db'.readings := by
  obtain ⟨reading, hfind, rfl⟩ := approveReading_ok_inv h
  apply updateReading_preserves_monthInvariant ym db id
    (approvedFields db reading.flatId id c now) (fun r => rfl) (fun r => rfl) ?_ hinv
  intro r hrm hid _
  exact hact r hrm hid

theorem reject_preserves_monthInvariant {ym : ℕ → String} {db db' : DB}
    {id : String} {reason : Option String}
    (hinv : monthInvariant ym db.readings)
    (h : rejectReading db id reason = Except.ok db') :
    monthInvariant ym db'.readings := by
  obtain ⟨r0, hfind, rfl⟩ := updateDocReading_ok_inv h
  apply updateReading_preserves_monthInvariant ym db id (rejectFields reason)
    (fun r => rfl) (fun r => rfl) ?_ hinv
  intro r hrm hid hactive
  simp [rejectFields, activeReading] at hactive

theorem reopen_preserves_monthInvariant {ym : ℕ → String} {db db' : DB}
    {id : String} {reason : Option String}
    (hinv : monthInvariant ym db.readings)
    (hact : ∀ r ∈ db.readings, r.id = id → activeReading r)
    (h : reopenReading db id reason = Except.ok db') :
    monthInvariant ym db'.readings := by
  obtain ⟨r0, hfind, rfl⟩ := updateDocReading_ok_inv h
  apply updateReading_preserves_monthInvariant ym db id (reopenFields reason)
    (fun r => rfl) (fun r => rfl) ?_ hinv
  intro r hrm hid _
  exact hact r hrm hid

/-- A rejected reading for flat F1 in month 2025-12. -/
def cexRejected : Reading :=
  { id := "rA", flatId := "F1", yearMonth := some "2025-12",
    status := some Status.rejected, createdAt := some 1 }

/-- A pending reading for flat F1 in the same month 2025-12. -/
def cexPending : Reading :=
  { id := "rB", flatId := "F1", yearMonth := some "2025-12",
    status := some Status.pending, createdAt := some 2 }

/-- A database satisfying the month invariant: one rejected and one pending
reading for the same flat and month. -/
def cexDb5 : DB := { readings := [cexRejected, cexPending], flats := [], settings := none }

/-- The state after approving the rejected reading `rA`. -/
def cexDb5' : DB := ((approveReading cexDb5 "rA" 5 10).toOption).getD cexDb5

/-- Counterexample to C5 as stated: the state `cexDb5` satisfies the invariant,
yet approving the rejected reading `rA` (which `approveReading` permits, having
no status check) yields a state with two pending/approved readings for flat F1
in month 2025-12. -/
theorem approve_rejected_breaks_invariant_cex :
    monthInvariant ymEx cexDb5.readings
    ∧ approveReading cexDb5 "rA" 5 10 = Except.ok cexDb5'
    ∧ ¬ monthInvariant ymEx cexDb5'.readings := by
  refine ⟨by decide, rfl, ?_⟩
  decide

/-- Claim C5 (amended): from a state satisfying the month invariant, creating
and rejecting always preserve it, and approving or reopening preserves it
provided every reading bearing the target id is currently pending or approved;
the unrestricted claim fails because approving or reopening a rejected reading
can produce a second active reading for the same flat and month. -/
theorem operations_preserve_month_invariant (ym fmt : ℕ → String) (db : DB)
    (hinv : monthInvariant ym db.readings) :
    (∀ nid fid img tr now db',
        createReadingFromImage ym fmt db nid fid img tr now = Except.ok db' →
        monthInvariant ym db'.readings)
    ∧ (∀ id reason db', rejectReading db id reason = Except.ok db' →
        monthInvariant ym db'.readings)
    ∧ (∀ id c now db', (∀ r ∈ db.readings, r.id = id → activeReading r) →
        approveReading db id c now = Except.ok db' → monthInvariant ym db'.readings)
    ∧ (∀ id reason db', (∀ r ∈ db.readings, r.id = id → activeReading r) →
        reopenReading db id reason = Except.ok db' → monthInvariant ym db'.readings) :=
  ⟨fun _ _ _ _ _ _ h => create_preserves_monthInvariant hinv h,
   fun _ _ _ h => reject_preserves_monthInvariant hinv h,
   fun _ _ _ _ hact h => approve_preserves_monthInvariant hinv hact h,
   fun _ _ _ hact h => reopen_preserves_monthInvariant hinv hact h⟩

/-- The state after rejecting the pending reading `rB` of `cexDb5`. -/
def cexDb5r : DB := ((rejectReading cexDb5 "rB" none).toOption).getD cexDb5

/-- The state after approving the pending reading `rB` of `cexDb5`. -/
def cexDb5a : DB := ((approveReading cexDb5 "rB" 5 10).toOption).getD cexDb5

/-- Witness for C5 (amended): rejecting the pending reading preserves the
invariant, and approving the pending (not rejected) reading preserves it. -/
theorem operations_preserve_month_invariant_witness :
    monthInvariant ymEx cexDb5r.readings ∧ monthInvariant ymEx cexDb5a.readings :=
  ⟨(operations_preserve_month_invariant ymEx fmtEx cexDb5 (by decide)).2.1
      "rB" none cexDb5r rfl,
   (operations_preserve_month_invariant ymEx fmtEx cexDb5 (by decide)).2.2.1
      "rB" 5 10 cexDb5a (by decide) rfl⟩

end SmartMeter
